import Mathlib

/-!
Verification of the XML-to-spreadsheet conversion utility
(`src/xml_to_xlsx.py`): the size estimator `count_upc_elements`, the
flattening parser `parse_contact_lens_xml`, and the skip-logging behavior.

The XML document tree is modelled by `Elem`; an input file is modelled by
`File`, which records whether the file is well-formed XML (and if so its
tree), whether the incremental `iterparse` scan of the estimator succeeds,
and which exception (if any) the full `ET.parse`/traversal raises.
The parser returns a pair: the optional resulting data frame, together with
the list of reasons passed to the skip logger, in order.
-/

set_option maxHeartbeats 1000000

namespace XmlToXlsx

/-- An XML element: tag, attribute list, optional text content, children. -/
inductive Elem where
| mk (tag : String) (attrs : List (String × String)) (text : Option String)
    (children : List Elem)

def Elem.tag : Elem → String
| .mk t _ _ _ => t

def Elem.attrs : Elem → List (String × String)
| .mk _ a _ _ => a

def Elem.text : Elem → Option String
| .mk _ _ x _ => x

def Elem.children : Elem → List Elem
| .mk _ _ _ cs => cs

mutual

/-- All proper descendants of an element, in document (preorder) order:
the model of `element.findall(\x27.//tag\x27)` before tag filtering. -/
def Elem.descendants : Elem → List Elem
| .mk _ _ _ cs => descList cs

def descList : List Elem → List Elem
| [] => []
| c :: cs => c :: (Elem.descendants c ++ descList cs)

end

mutual

/-- The sequence of tags in the order `ET.iterparse(..., events=("end",))`
delivers end events: children first (postorder), the element itself last. -/
def Elem.endTags : Elem → List String
| .mk t _ _ cs => endTagsList cs ++ [t]

def endTagsList : List Elem → List String
| [] => []
| c :: cs => Elem.endTags c ++ endTagsList cs

end

/-- The counting loop of `count_upc_elements` over the end-event tag
sequence: increment on each "upc" tag, and return immediately once the
running count exceeds `maxEst` (the early exit). -/
def countLoop (maxEst : Nat) : List String → Nat → Nat
| [], c => c
| t :: ts, c =>
  if t = "upc" then
    if c + 1 > maxEst then c + 1
    else countLoop maxEst ts (c + 1)
  else countLoop maxEst ts c

/-- Which exception, if any, the full `ET.parse` + traversal of a
well-formed file raises inside the `try` block. -/
inductive FullOutcome where
| ok
| memoryError
| otherError (kind : String) (detail : String)

/-- An input file: either well-formed XML with its tree, a flag telling
whether the estimator scan succeeds (an `iterparse` failure is caught and
turned into `None`), and the outcome of the full parse; or malformed XML,
on which both the scan and `ET.parse` fail, the latter with the given
`ParseError` detail. -/
inductive File where
| wellFormed (root : Elem) (scanOk : Bool) (outcome : FullOutcome)
| malformed (detail : String)

/-- `count_upc_elements(filepath, max_upc_estimate=1200000)`: quick
low-memory estimate of the `<upc>` count using `iterparse`.
Returns the count, or `none` if the scan fails. -/
def count_upc_elements (f : File) (maxEst : Nat := 1200000) : Option Nat :=
  match f with
  | .wellFormed root true _ => some (countLoop maxEst (Elem.endTags root) 0)
  | .wellFormed _ false _ => none
  | .malformed _ => none

/-- Insert thousands separators, as Python string formatting with the
comma option does for a nonnegative integer. -/
def commaGroup : List Char → List Char
| c1 :: c2 :: c3 :: c4 :: rest => c1 :: c2 :: c3 :: ',' :: commaGroup (c4 :: rest)
| l => l

def commaFmt (n : Nat) : String :=
  String.mk ((commaGroup (toString n).toList.reverse).reverse)

/-- `element.findall(tag)` for a plain tag: the direct children carrying
that tag, in order. -/
def childrenWithTag (e : Elem) (t : String) : List Elem :=
  e.children.filter (fun c => c.tag = t)

/-- The first direct child carrying the given tag, if any. -/
def findChild (e : Elem) (t : String) : Option Elem :=
  e.children.find? (fun c => c.tag = t)

/-- `element.findtext(tag, default=dflt)`: the text of the first direct
child with that tag (empty string if the child has no text), or the
default if there is no such child. -/
def findtext (e : Elem) (t dflt : String) : String :=
  match findChild e t with
  | some c =>
    match c.text with
    | some s => s
    | none => ""
  | none => dflt

/-- `element.get(key, default=dflt)`: attribute lookup with a default. -/
def attrD (e : Elem) (k dflt : String) : String :=
  match e.attrs.lookup k with
  | some v => v
  | none => dflt

/-- A row dictionary: keys in insertion order, as a Python dict. -/
abbrev Dict := List (String × String)

/-- The row dictionary built for one `<upc>` element, exactly as the body
of the innermost loop of `parse_contact_lens_xml` builds it. -/
def mkRow (manuf prod upc : Elem) : Dict :=
  [ ("Manufacturer_Code", findtext manuf "mCode" ""),
    ("Manufacturer_Desc", findtext manuf "mDesc" ""),
    ("Product_Code", findtext prod "pCode" ""),
    ("Product_Desc", findtext prod "pDesc" ""),
    ("Product_Mode", attrD prod "mode" ""),
    ("Trial_or_Revenue", findtext prod "pTrialOrRev" ""),
    ("Modality", findtext prod "pModality" ""),
    ("Product_Type", findtext prod "pType" ""),
    ("Quantity", findtext prod "qty" ""),
    ("Quantity_Unit", findtext prod "qtyUnit" ""),
    ("UPC_ID", attrD upc "id" ""),
    ("Power", attrD upc "power" ""),
    ("Base_Curve", attrD upc "basecurve" ""),
    ("Diameter", attrD upc "diameter" ""),
    ("Color", attrD upc "color" ""),
    ("Color2", attrD upc "color2" ""),
    ("Cylinder", attrD upc "cylinder" ""),
    ("Axis", attrD upc "axis" ""),
    ("Design", attrD upc "design" ""),
    ("Add", attrD upc "add" "") ]

/-- The canonical column order hard-coded in `parse_contact_lens_xml`. -/
def column_order : List String :=
  [ "Manufacturer_Code", "Manufacturer_Desc",
    "Product_Code", "Product_Desc", "Product_Mode",
    "Trial_or_Revenue", "Modality", "Product_Type",
    "Quantity", "Quantity_Unit",
    "UPC_ID", "Power", "Base_Curve", "Diameter",
    "Color", "Color2", "Cylinder", "Axis", "Design", "Add" ]

/-- The list of rows accumulated by the nested traversal loops:
every `.//manufacturer` descendant, its direct `product` children, their
direct `upc` children. -/
def extractRows (root : Elem) : List Dict :=
  ((Elem.descendants root).filter (fun d => d.tag = "manufacturer")).flatMap
    (fun manuf => (childrenWithTag manuf "product").flatMap
      (fun prod => (childrenWithTag prod "upc").map
        (fun upc => mkRow manuf prod upc)))

/-- Accumulate keys not yet present, preserving first-occurrence order. -/
def addKeys (acc : List String) (ks : List String) : List String :=
  ks.foldl (fun a k => if a.contains k then a else a ++ [k]) acc

/-- `pd.DataFrame(rows).columns`: the union of the dict keys in
first-occurrence order. -/
def unionKeys (rows : List Dict) : List String :=
  rows.foldl (fun acc r => addKeys acc (r.map Prod.fst)) []

/-- A data frame: a column list and the row dictionaries; a cell is read
by looking its column name up in the row. -/
structure Frame where
  cols : List String
  rows : List Dict

/-- The `try` block of `parse_contact_lens_xml`: full parse, traversal,
empty check, column reordering, row-limit check — plus the three `except`
clauses. Returns the optional frame and the reasons logged. -/
def parseBody : File → Option Frame × List String
| .malformed d => (none, ["XML parse error: " ++ d])
| .wellFormed _ _ .memoryError =>
  (none, ["MemoryError - file too large for ElementTree/pandas"])
| .wellFormed _ _ (.otherError kind detail) =>
  (none, ["Unexpected error: " ++ kind ++ " - " ++ detail])
| .wellFormed root _ .ok =>
  let rows := extractRows root
  if rows.isEmpty then
    (none, [])
  else
    let availableCols := column_order.filter (fun c => (unionKeys rows).contains c)
    if rows.length > 1048576 then
      (none, ["Too many rows (" ++ commaFmt rows.length ++ " > Excel max 1,048,576)"])
    else
      (some ⟨availableCols, rows⟩, [])

/-- `parse_contact_lens_xml(filepath)`: pre-flight size check via the
estimator, then the full parse. Returns the optional frame and the
reasons logged via `log_skipped_file`, in order. -/
def parse_contact_lens_xml (f : File) : Option Frame × List String :=
  match count_upc_elements f with
  | some n =>
    if n > 1000000 then
      (none, ["Too many UPCs (~" ++ commaFmt n ++ " > 1M limit)"])
    else parseBody f
  | none => parseBody f

/-! ### Derived counting measures and auxiliary definitions -/

/-- The exact number of `upc`-tagged elements anywhere in the tree: the
quantity the estimator counts when it scans the whole document. -/
def upcTotal (e : Elem) : Nat := (Elem.endTags e).count "upc"

/-- Number of direct `upc` children of an element. -/
def upcChildCount (p : Elem) : Nat := (childrenWithTag p "upc").length

/-- Number of rows an element contributes when treated as a manufacturer:
the `upc` children of its direct `product` children. -/
def prodUpc (m : Elem) : Nat :=
  ((childrenWithTag m "product").map upcChildCount).sum

/-- Number of rows the traversal extracts from a document. -/
def rowCount (e : Elem) : Nat :=
  (((Elem.descendants e).filter (fun d => d.tag = "manufacturer")).map prodUpc).sum

/-- Bonus for an element that is itself manufacturer-tagged. -/
def mB (e : Elem) : Nat := if e.tag = "manufacturer" then prodUpc e else 0

/-- Bonus for an element that is itself product-tagged. -/
def pB (e : Elem) : Nat := if e.tag = "product" then upcChildCount e else 0

/-- Bonus for an element that is itself upc-tagged. -/
def uB (e : Elem) : Nat := if e.tag = "upc" then 1 else 0

/-- The (manufacturer, product, upc) triples visited by the nested loops,
in document traversal order. -/
def upcTriples (root : Elem) : List (Elem × Elem × Elem) :=
  ((Elem.descendants root).filter (fun d => d.tag = "manufacturer")).flatMap
    (fun manuf => (childrenWithTag manuf "product").flatMap
      (fun prod => (childrenWithTag prod "upc").map
        (fun upc => (manuf, prod, upc))))

/-- Where a canonical output field is read from in the source document. -/
inductive Src where
| mChild (t : String)
| pChild (t : String)
| pAttr (k : String)
| uAttr (k : String)
deriving DecidableEq

/-- The source of each of the 20 canonical columns, as hard-coded in the
row-building loop. -/
def fieldSrc : List (String × Src) :=
  [ ("Manufacturer_Code", .mChild "mCode"),
    ("Manufacturer_Desc", .mChild "mDesc"),
    ("Product_Code", .pChild "pCode"),
    ("Product_Desc", .pChild "pDesc"),
    ("Product_Mode", .pAttr "mode"),
    ("Trial_or_Revenue", .pChild "pTrialOrRev"),
    ("Modality", .pChild "pModality"),
    ("Product_Type", .pChild "pType"),
    ("Quantity", .pChild "qty"),
    ("Quantity_Unit", .pChild "qtyUnit"),
    ("UPC_ID", .uAttr "id"),
    ("Power", .uAttr "power"),
    ("Base_Curve", .uAttr "basecurve"),
    ("Diameter", .uAttr "diameter"),
    ("Color", .uAttr "color"),
    ("Color2", .uAttr "color2"),
    ("Cylinder", .uAttr "cylinder"),
    ("Axis", .uAttr "axis"),
    ("Design", .uAttr "design"),
    ("Add", .uAttr "add") ]

/-- The given source field is absent for the given manufacturer/product/upc
triple. -/
def srcMissing (m p u : Elem) : Src → Prop
| .mChild t => findChild m t = none
| .pChild t => findChild p t = none
| .pAttr k => p.attrs.lookup k = none
| .uAttr k => u.attrs.lookup k = none

/-- Reading one source field, with the empty-string defaults of the code. -/
def readField (m p u : Elem) : Src → String
| .mChild t => findtext m t ""
| .pChild t => findtext p t ""
| .pAttr k => attrD p k ""
| .uAttr k => attrD u k ""

/-! ### Concrete documents used in scenarios and witnesses -/

/-- A leaf element holding only text. -/
def textEl (t s : String) : Elem := .mk t [] (some s) []

/-- A `<upc id="..."/>` element. -/
def upcElem (id : String) : Elem := .mk "upc" [("id", id)] none []

/-- Scenario A: product "P1" with mode attribute "A" and two upcs. -/
def prodA : Elem :=
  .mk "product" [("mode", "A")] none
    [textEl "pCode" "P1", upcElem "U1", upcElem "U2"]

/-- Scenario A: manufacturer "M1" owning `prodA`. -/
def manufA : Elem := .mk "manufacturer" [] none [textEl "mCode" "M1", prodA]

/-- Scenario A: document with one manufacturer, one product, two upcs. -/
def docA : Elem := .mk "catalog" [] none [manufA]

/-- Scenario A document as a well-formed file. -/
def fileA : File := .wellFormed docA true .ok

/-- An attribute-less childless `<upc/>` element. -/
def upcLeaf : Elem := .mk "upc" [] none []

/-- A product with `n` attribute-less upc children. -/
def bigProd (n : Nat) : Elem := .mk "product" [] none (List.replicate n upcLeaf)

/-- A manufacturer owning `bigProd n`. -/
def bigManuf (n : Nat) : Elem := .mk "manufacturer" [] none [bigProd n]

/-- A document with `n` upc elements in proper manufacturer→product→upc
position. -/
def bigDoc (n : Nat) : Elem := .mk "catalog" [] none [bigManuf n]

/-- A document with `n` upc elements directly under the root, outside any
manufacturer/product hierarchy, so none of them is extractable. -/
def flatUpcDoc (n : Nat) : Elem :=
  .mk "catalog" [] none (List.replicate n upcLeaf)

/-- A document with no elements below the root at all. -/
def docEmpty : Elem := .mk "catalog" [] none []

/-- A product with a `mode` CHILD ELEMENT (text "Z") but no `mode`
attribute: discriminates attribute-sourced from child-sourced fields. -/
def prodM : Elem :=
  .mk "product" [] none [.mk "mode" [] (some "Z") [], upcElem "V1"]

/-- Manufacturer wrapping `prodM`. -/
def manufM : Elem := .mk "manufacturer" [] none [textEl "mCode" "M2", prodM]

/-! ### Helper lemmas -/

/-- Induction principle for `Elem` giving the hypothesis on every child. -/
theorem Elem.ind (motive : Elem → Prop)
    (h : ∀ t a x cs, (∀ c, c ∈ cs → motive c) → motive (Elem.mk t a x cs)) :
    ∀ e, motive e
| .mk t a x cs => h t a x cs (fun c hmem => Elem.ind motive h c)
termination_by e => sizeOf e
decreasing_by
  have := List.sizeOf_lt_of_mem hmem
  simp only [Elem.mk.sizeOf_spec]
  omega

/-- Full characterization of the estimator's counting loop: below the
threshold it returns the exact tag count, above it the early exit returns
exactly `maxEst + 1`. -/
theorem countLoop_eq (maxEst : Nat) :
    ∀ (l : List String) (c : Nat), c ≤ maxEst →
      countLoop maxEst l c =
        if c + l.count "upc" ≤ maxEst then c + l.count "upc" else maxEst + 1
| [], c, hc => by simp [countLoop, hc]
| t :: ts, c, hc => by
  by_cases ht : t = "upc"
  · subst ht
    have hcnt : List.count "upc" (("upc" : String) :: ts) = ts.count "upc" + 1 := by
      simp [List.count_cons]
    have hunfold : countLoop maxEst (("upc" : String) :: ts) c =
        if c + 1 > maxEst then c + 1 else countLoop maxEst ts (c + 1) := by
      simp [countLoop]
    rw [hunfold, hcnt]
    by_cases h1 : c + 1 > maxEst
    · rw [if_pos h1, if_neg (by omega)]
      omega
    · rw [if_neg h1, countLoop_eq maxEst ts (c + 1) (by omega)]
      by_cases h2 : c + 1 + ts.count "upc" ≤ maxEst
      · rw [if_pos h2, if_pos (by omega)]
        omega
      · rw [if_neg h2, if_neg (by omega)]
  · have hcnt : List.count "upc" (t :: ts) = ts.count "upc" := by
      simp [List.count_cons, ht]
    have hunfold : countLoop maxEst (t :: ts) c = countLoop maxEst ts c := by
      simp [countLoop, ht]
    rw [hunfold, hcnt, countLoop_eq maxEst ts c hc]

/-- Count of "upc" among the end tags of a list of trees. -/
theorem count_endTagsList : ∀ cs : List Elem,
    (endTagsList cs).count "upc" = (cs.map upcTotal).sum
| [] => by simp [endTagsList]
| c :: cs => by
  simp [endTagsList, List.count_append, upcTotal, count_endTagsList cs]

/-- `upcTotal` unfolded one level. -/
theorem upcTotal_mk (t : String) (a : List (String × String)) (x : Option String)
    (cs : List Elem) :
    upcTotal (.mk t a x cs) = (cs.map upcTotal).sum + uB (.mk t a x cs) := by
  simp only [upcTotal, Elem.endTags, List.count_append, count_endTagsList, uB, Elem.tag]
  by_cases ht : t = "upc"
  · simp [ht]
  · simp [List.count_cons, ht]

/-- Filtered-and-mapped sums are sums of guarded terms. -/
theorem sum_filter_map (p : Elem → Bool) (f : Elem → Nat) : ∀ l : List Elem,
    ((l.filter p).map f).sum = (l.map (fun x => if p x then f x else 0)).sum
| [] => by simp
| c :: l => by
  by_cases hp : p c
  · simp [List.filter_cons, hp, sum_filter_map p f l]
  · simp [List.filter_cons, hp, sum_filter_map p f l]

/-- A sum of ones over a list is its length. -/
theorem sum_ones : ∀ l : List Elem, (l.map (fun _ => 1)).sum = l.length
| [] => by simp
| _ :: l => by simp [sum_ones l, Nat.add_comm]

/-- `prodUpc` as a sum of the product bonus over all children. -/
theorem prodUpc_eq (e : Elem) : prodUpc e = (e.children.map pB).sum := by
  have := sum_filter_map (fun c => c.tag = "product") upcChildCount e.children
  simp only [prodUpc, childrenWithTag] at *
  rw [this]
  congr 1
  apply List.map_congr_left
  intro c _
  by_cases hc : c.tag = "product" <;> simp [pB, hc]

/-- `upcChildCount` as a sum of the upc bonus over all children. -/
theorem upcChildCount_eq (e : Elem) : upcChildCount e = (e.children.map uB).sum := by
  have h1 := sum_filter_map (fun c => c.tag = "upc") (fun _ => 1) e.children
  have h2 := sum_ones ((e.children.filter (fun c => c.tag = "upc")))
  simp only [upcChildCount, childrenWithTag]
  rw [← h2, h1]
  congr 1
  apply List.map_congr_left
  intro c _
  by_cases hc : c.tag = "upc" <;> simp [uB, hc]

/-- The rows contributed by the descendants of a list of trees. -/
theorem rowCountList : ∀ cs : List Elem,
    (((descList cs).filter (fun d => d.tag = "manufacturer")).map prodUpc).sum =
      (cs.map (fun c => mB c + rowCount c)).sum
| [] => by simp [descList]
| c :: cs => by
  have hdl : descList (c :: cs) = c :: (Elem.descendants c ++ descList cs) := rfl
  have hrC : rowCount c =
      (((Elem.descendants c).filter (fun d => d.tag = "manufacturer")).map prodUpc).sum := rfl
  by_cases hc : c.tag = "manufacturer"
  · have hmB : mB c = prodUpc c := by simp [mB, hc]
    rw [hdl]
    have hfil : (c :: (Elem.descendants c ++ descList cs)).filter
          (fun d => d.tag = "manufacturer")
        = c :: ((Elem.descendants c).filter (fun d => d.tag = "manufacturer")
            ++ (descList cs).filter (fun d => d.tag = "manufacturer")) := by
      simp [List.filter_cons, List.filter_append, hc]
    rw [hfil]
    simp only [List.map_cons, List.map_append, List.sum_cons, List.sum_append]
    rw [rowCountList cs, hmB, hrC]
    omega
  · have hmB : mB c = 0 := by simp [mB, hc]
    rw [hdl]
    have hfil : (c :: (Elem.descendants c ++ descList cs)).filter
          (fun d => d.tag = "manufacturer")
        = (Elem.descendants c).filter (fun d => d.tag = "manufacturer")
            ++ (descList cs).filter (fun d => d.tag = "manufacturer") := by
      simp [List.filter_cons, List.filter_append, hc]
    rw [hfil]
    simp only [List.map_cons, List.map_append, List.sum_cons, List.sum_append]
    rw [rowCountList cs, hmB, hrC]
    omega

/-- `rowCount` unfolded one level. -/
theorem rowCount_mk (t : String) (a : List (String × String)) (x : Option String)
    (cs : List Elem) :
    rowCount (.mk t a x cs) = (cs.map (fun c => mB c + rowCount c)).sum := by
  simp only [rowCount, Elem.descendants]
  exact rowCountList cs

/-- Key safety inequality: extracted rows plus the positional bonuses never
exceed the total number of upc-tagged elements in the tree. -/
theorem rowCount_add_le : ∀ e : Elem, rowCount e + mB e + pB e + uB e ≤ upcTotal e := by
  apply Elem.ind
  intro t a x cs ih
  have hrc := rowCount_mk t a x cs
  have hut := upcTotal_mk t a x cs
  have hmB : mB (.mk t a x cs) ≤ (cs.map pB).sum := by
    by_cases ht : t = "manufacturer"
    · subst ht
      have h := prodUpc_eq (Elem.mk "manufacturer" a x cs)
      simp only [Elem.children] at h
      simp [mB, Elem.tag, h]
    · simp [mB, Elem.tag, ht]
  have hpB : pB (.mk t a x cs) ≤ (cs.map uB).sum := by
    by_cases ht : t = "product"
    · subst ht
      have h := upcChildCount_eq (Elem.mk "product" a x cs)
      simp only [Elem.children] at h
      simp [pB, Elem.tag, h]
    · simp [pB, Elem.tag, ht]
  have hsum : (cs.map (fun c => mB c + rowCount c)).sum + (cs.map pB).sum
      + (cs.map uB).sum ≤ (cs.map upcTotal).sum := by
    have hcomb : (cs.map (fun c => mB c + rowCount c)).sum + (cs.map pB).sum
        + (cs.map uB).sum
        = (cs.map (fun c => (mB c + rowCount c) + pB c + uB c)).sum := by
      simp [List.sum_map_add]
    rw [hcomb]
    apply List.sum_le_sum
    intro c hc
    have := ih c hc
    omega
  omega

/-- The length of the extracted row list is the counted row measure. -/
theorem extractRows_length (root : Elem) :
    (extractRows root).length = rowCount root := by
  simp only [extractRows, rowCount, List.length_flatMap, List.map_map]
  congr 1
  apply List.map_congr_left
  intro m _
  simp only [Function.comp, List.length_flatMap, List.map_map, prodUpc]
  congr 1
  apply List.map_congr_left
  intro p _
  simp [upcChildCount]

/-- Rows never exceed the exact upc-element count of the document. -/
theorem extractRows_le_upcTotal (root : Elem) :
    (extractRows root).length ≤ upcTotal root := by
  have h := rowCount_add_le root
  have := extractRows_length root
  omega

/-- The estimator on a scannable file: exact count below the threshold,
`maxEst + 1` once the early exit fires. -/
theorem count_upc_char (root : Elem) (o : FullOutcome) (maxEst : Nat) :
    count_upc_elements (.wellFormed root true o) maxEst =
      some (if upcTotal root ≤ maxEst then upcTotal root else maxEst + 1) := by
  have h := countLoop_eq maxEst (Elem.endTags root) 0 (Nat.zero_le maxEst)
  simp only [count_upc_elements, h, Nat.zero_add, upcTotal]

/-- Descendants of a forest of childless upc leaves. -/
theorem descList_replicate_upcLeaf : ∀ n : Nat,
    descList (List.replicate n upcLeaf) = List.replicate n upcLeaf
| 0 => rfl
| n + 1 => by
  simp only [List.replicate_succ, descList]
  rw [descList_replicate_upcLeaf n]
  rfl

/-- End tags of a forest of childless upc leaves. -/
theorem endTagsList_replicate_upcLeaf : ∀ n : Nat,
    endTagsList (List.replicate n upcLeaf) = List.replicate n "upc"
| 0 => rfl
| n + 1 => by
  simp only [List.replicate_succ, endTagsList]
  rw [endTagsList_replicate_upcLeaf n]
  rfl

/-- Exact upc count of the `bigDoc` family. -/
theorem upcTotal_bigDoc (n : Nat) : upcTotal (bigDoc n) = n := by
  simp only [bigDoc, bigManuf, bigProd, upcTotal, Elem.endTags, endTagsList,
    endTagsList_replicate_upcLeaf, List.append_nil]
  simp [List.count_append, List.count_cons, List.count_replicate]

/-- Replicated upc leaves contain no manufacturer. -/
theorem filter_manuf_replicate (n : Nat) :
    (List.replicate n upcLeaf).filter (fun d => d.tag = "manufacturer") = [] :=
  List.filter_replicate_of_neg (by decide)

/-- The only manufacturer among the descendants of `bigDoc n`. -/
theorem filter_manuf_bigDoc (n : Nat) :
    (Elem.descendants (bigDoc n)).filter (fun d => d.tag = "manufacturer")
      = [bigManuf n] := by
  have hdesc : Elem.descendants (bigDoc n) =
      bigManuf n :: ((bigProd n :: (descList (List.replicate n upcLeaf) ++ [])) ++ []) := rfl
  rw [hdesc, descList_replicate_upcLeaf]
  simp only [List.append_nil]
  have hred : (bigManuf n :: bigProd n :: List.replicate n upcLeaf).filter
        (fun d => d.tag = "manufacturer")
      = bigManuf n :: (List.replicate n upcLeaf).filter
        (fun d => d.tag = "manufacturer") := rfl
  rw [hred, filter_manuf_replicate]

/-- The upc children of `bigProd n`. -/
theorem childrenWithTag_bigProd (n : Nat) :
    childrenWithTag (bigProd n) "upc" = List.replicate n upcLeaf := by
  simp only [childrenWithTag, bigProd, Elem.children]
  exact List.filter_replicate_of_pos (by decide)

/-- Extracted rows of the `bigDoc` family: one per upc leaf. -/
theorem extractRows_bigDoc (n : Nat) :
    extractRows (bigDoc n) =
      List.replicate n (mkRow (bigManuf n) (bigProd n) upcLeaf) := by
  have hprod : childrenWithTag (bigManuf n) "product" = [bigProd n] := rfl
  simp only [extractRows, filter_manuf_bigDoc, List.flatMap_cons, List.flatMap_nil,
    hprod, childrenWithTag_bigProd, List.append_nil, List.map_replicate]

/-- Row count of the `bigDoc` family. -/
theorem extractRows_bigDoc_length (n : Nat) :
    (extractRows (bigDoc n)).length = n := by
  rw [extractRows_bigDoc]
  simp

/-- The flat document extracts no rows: its upc elements sit outside any
manufacturer/product hierarchy. -/
theorem extractRows_flatUpcDoc (n : Nat) : extractRows (flatUpcDoc n) = [] := by
  have hdesc : Elem.descendants (flatUpcDoc n) = descList (List.replicate n upcLeaf) := rfl
  simp only [extractRows, hdesc, descList_replicate_upcLeaf, filter_manuf_replicate,
    List.flatMap_nil]

/-- Exact upc count of the flat document. -/
theorem upcTotal_flatUpcDoc (n : Nat) : upcTotal (flatUpcDoc n) = n := by
  have h : Elem.endTags (flatUpcDoc n) =
      endTagsList (List.replicate n upcLeaf) ++ ["catalog"] := rfl
  simp only [upcTotal, h, endTagsList_replicate_upcLeaf]
  simp [List.count_append, List.count_cons, List.count_replicate]

/-- Every row dictionary carries exactly the 20 canonical keys, in the
canonical insertion order. -/
theorem keys_mkRow (m p u : Elem) : (mkRow m p u).map Prod.fst = column_order := rfl

/-- Folding key-union over rows whose keys are already the canonical list
leaves the accumulator at the canonical list. -/
theorem foldl_addKeys_const : ∀ rows : List Dict,
    (∀ r ∈ rows, r.map Prod.fst = column_order) →
    rows.foldl (fun acc r => addKeys acc (r.map Prod.fst)) column_order = column_order
| [], _ => rfl
| r :: rs, h => by
  have hr : r.map Prod.fst = column_order := h r (List.mem_cons_self r rs)
  have hstep : addKeys column_order (r.map Prod.fst) = column_order := by
    rw [hr]
    decide
  simp only [List.foldl_cons, hstep]
  exact foldl_addKeys_const rs (fun x hx => h x (List.mem_cons_of_mem r hx))

/-- The data-frame column set of rows with canonical keys. -/
theorem unionKeys_of_keys (rows : List Dict)
    (h : ∀ r ∈ rows, r.map Prod.fst = column_order) (hne : rows ≠ []) :
    unionKeys rows = column_order := by
  cases rows with
  | nil => exact absurd rfl hne
  | cons r rs =>
    have hr : r.map Prod.fst = column_order := h r (List.mem_cons_self r rs)
    have h0 : addKeys [] (r.map Prod.fst) = column_order := by
      rw [hr]
      decide
    simp only [unionKeys, List.foldl_cons, h0]
    exact foldl_addKeys_const rs (fun x hx => h x (List.mem_cons_of_mem r hx))

/-- Every extracted row is built by `mkRow` from some manufacturer,
product and upc element. -/
theorem mem_extractRows (root : Elem) (r : Dict) (h : r ∈ extractRows root) :
    ∃ m p u, r = mkRow m p u := by
  simp only [extractRows, List.mem_flatMap, List.mem_map] at h
  obtain ⟨m, _, p, _, u, _, hr⟩ := h
  exact ⟨m, p, u, hr.symm⟩

/-- The column selection applied to extracted rows keeps all 20 canonical
columns in canonical order. -/
theorem availableCols_extractRows (root : Elem) (hne : extractRows root ≠ []) :
    column_order.filter (fun c => (unionKeys (extractRows root)).contains c)
      = column_order := by
  have hkeys : ∀ r ∈ extractRows root, r.map Prod.fst = column_order := by
    intro r hr
    obtain ⟨m, p, u, rfl⟩ := mem_extractRows root r hr
    exact keys_mkRow m p u
  rw [unionKeys_of_keys (extractRows root) hkeys hne]
  decide

/-- Looking a canonical column up in a built row reads exactly its source
field. -/
theorem lookup_mkRow (m p u : Elem) (cName : String) (s : Src)
    (hmem : (cName, s) ∈ fieldSrc) :
    (mkRow m p u).lookup cName = some (readField m p u s) := by
  fin_cases hmem <;> rfl

/-- A missing source field reads as the empty string. -/
theorem missing_field_empty (m p u : Elem) (s : Src) (hmiss : srcMissing m p u s) :
    readField m p u s = "" := by
  cases s with
  | mChild t =>
    simp only [srcMissing] at hmiss
    simp [readField, findtext, hmiss]
  | pChild t =>
    simp only [srcMissing] at hmiss
    simp [readField, findtext, hmiss]
  | pAttr k =>
    simp only [srcMissing] at hmiss
    simp [readField, attrD, hmiss]
  | uAttr k =>
    simp only [srcMissing] at hmiss
    simp [readField, attrD, hmiss]

/-- Defaulting: a canonical field whose source element or attribute is
missing holds the empty string in the built row — never an absent key. -/
theorem mkRow_missing (m p u : Elem) (cName : String) (s : Src)
    (hmem : (cName, s) ∈ fieldSrc) (hmiss : srcMissing m p u s) :
    (mkRow m p u).lookup cName = some "" := by
  rw [lookup_mkRow m p u cName s hmem, missing_field_empty m p u s hmiss]

/-- The parser proceeds to the body when the estimator fails. -/
theorem parse_eq_body_of_none (f : File) (h : count_upc_elements f = none) :
    parse_contact_lens_xml f = parseBody f := by
  simp [parse_contact_lens_xml, h]

/-- The parser proceeds to the body when the estimate is within the cap. -/
theorem parse_eq_body_of_small (f : File) (n : Nat)
    (h : count_upc_elements f = some n) (hn : ¬ n > 1000000) :
    parse_contact_lens_xml f = parseBody f := by
  simp [parse_contact_lens_xml, h, hn]

/-- The parser rejects pre-flight when the estimate exceeds the cap. -/
theorem parse_reject_of_big (f : File) (n : Nat)
    (h : count_upc_elements f = some n) (hn : n > 1000000) :
    parse_contact_lens_xml f =
      (none, ["Too many UPCs (~" ++ commaFmt n ++ " > 1M limit)"]) := by
  simp [parse_contact_lens_xml, h, hn]

/-- Branch structure of the body on a fully-parsable file. -/
theorem parseBody_ok (root : Elem) (scan : Bool) :
    parseBody (.wellFormed root scan .ok) =
      if extractRows root = [] then (none, [])
      else if (extractRows root).length > 1048576 then
        (none, ["Too many rows (" ++ commaFmt (extractRows root).length
          ++ " > Excel max 1,048,576)"])
      else
        (some ⟨column_order.filter (fun c => (unionKeys (extractRows root)).contains c),
          extractRows root⟩, []) := by
  by_cases h : extractRows root = []
  · simp [parseBody, h]
  · by_cases h2 : (extractRows root).length > 1048576
    · simp [parseBody, h, h2]
    · simp [parseBody, h, h2]

/-! ### Claim theorems -/

/-- C1: whenever the size estimator returns a count strictly greater than
1,000,000, the parser rejects the document, logging the too-many-leaf-records
("Too many UPCs") reason via the skip logger, and does so whatever the full
parse would have done (so the full parse is never attempted); and whenever
the estimator returns null, the parser proceeds to the full parse body,
so it never rejects on the basis of the estimate. -/
theorem C1_size_guard :
    (∀ root o n, count_upc_elements (.wellFormed root true o) = some n →
      1000000 < n →
      ∀ o', parse_contact_lens_xml (.wellFormed root true o') =
        (none, ["Too many UPCs (~" ++ commaFmt n ++ " > 1M limit)"])) ∧
    (∀ f, count_upc_elements f = none → parse_contact_lens_xml f = parseBody f) := by
  constructor
  · intro root o n h hn o'
    have h' : count_upc_elements (.wellFormed root true o') = some n := h
    exact parse_reject_of_big _ n h' hn
  · intro f h
    exact parse_eq_body_of_none f h

/-- C1 witness: a document with 1,000,001 upc records is rejected with the
logged reason. -/
theorem C1_size_guard_witness :
    parse_contact_lens_xml (.wellFormed (bigDoc 1000001) true .ok) =
      (none, ["Too many UPCs (~1,000,001 > 1M limit)"]) := by
  have hcount : count_upc_elements (.wellFormed (bigDoc 1000001) true .ok)
      = some 1000001 := by
    rw [count_upc_char, upcTotal_bigDoc]
    norm_num
  have h := C1_size_guard.1 (bigDoc 1000001) .ok 1000001 hcount (by norm_num) .ok
  rw [h, show commaFmt 1000001 = "1,000,001" from by decide]
  rfl

/-- C4: the parser emits exactly one flat row per
manufacturer→product→upc triple, in document traversal order, and on the
Scenario A document (one manufacturer "M1", one product "P1" with mode
attribute "A", two upcs "U1","U2") produces exactly two rows sharing
Manufacturer_Code and Product_Code and differing only in UPC_ID; the
mode field is read from the product attribute, not from a child element. -/
theorem C4_traversal :
    (∀ root, extractRows root =
      (upcTriples root).map (fun t => mkRow t.1 t.2.1 t.2.2)) ∧
    extractRows docA =
      [mkRow manufA prodA (upcElem "U1"), mkRow manufA prodA (upcElem "U2")] ∧
    parse_contact_lens_xml fileA = (some ⟨column_order, extractRows docA⟩, []) ∧
    (extractRows docA).map (fun r => r.lookup "Manufacturer_Code")
      = [some "M1", some "M1"] ∧
    (extractRows docA).map (fun r => r.lookup "Product_Code")
      = [some "P1", some "P1"] ∧
    (extractRows docA).map (fun r => r.lookup "Product_Mode")
      = [some "A", some "A"] ∧
    (extractRows docA).map (fun r => r.lookup "UPC_ID")
      = [some "U1", some "U2"] ∧
    (∀ c ∈ column_order, c ≠ "UPC_ID" →
      (mkRow manufA prodA (upcElem "U1")).lookup c
        = (mkRow manufA prodA (upcElem "U2")).lookup c) ∧
    (mkRow manufM prodM (upcElem "V1")).lookup "Product_Mode" = some "" := by
  refine ⟨?_, by decide, by rfl, by decide, by decide, by decide, by decide,
    by decide, by decide⟩
  intro root
  simp [extractRows, upcTriples, List.map_flatMap, List.map_map, Function.comp_def]

/-- C4 witness: the differ-only-in-UPC_ID conjunct instantiated at the
concrete column "Power". -/
theorem C4_traversal_witness :
    (mkRow manufA prodA (upcElem "U1")).lookup "Power"
      = (mkRow manufA prodA (upcElem "U2")).lookup "Power" :=
  C4_traversal.2.2.2.2.2.2.2.1 "Power" (by decide) (by decide)

/-- C8: the estimator returns a (nonnegative) integer or null: on a
scannable document it returns the exact number of upc tag occurrences when
that number is within the early-exit threshold, and returns immediately
with the count so far — exactly threshold+1, a lower bound of the exact
count — once the running count exceeds the threshold; when the scan fails
(unscannable or malformed file) it returns null. -/
theorem C8_estimator :
    (∀ root o maxEst n,
      count_upc_elements (.wellFormed root true o) maxEst = some n →
      (n ≤ maxEst → n = upcTotal root) ∧
      (maxEst < n → n = maxEst + 1 ∧ maxEst + 1 ≤ upcTotal root)) ∧
    (∀ root o maxEst, count_upc_elements (.wellFormed root false o) maxEst = none) ∧
    (∀ d maxEst, count_upc_elements (.malformed d) maxEst = none) := by
  refine ⟨?_, fun root o maxEst => rfl, fun d maxEst => rfl⟩
  intro root o maxEst n h
  rw [count_upc_char] at h
  have h' := Option.some.inj h
  by_cases hle : upcTotal root ≤ maxEst
  · rw [if_pos hle] at h'
    constructor
    · intro _
      omega
    · intro hgt
      omega
  · rw [if_neg hle] at h'
    constructor
    · intro hn
      omega
    · intro _
      omega

/-- C8 witness: on the Scenario A document the exact count 2 is returned
below the threshold, and with threshold 1 the early exit returns 2 = 1+1,
a lower bound of the true count. -/
theorem C8_estimator_witness :
    count_upc_elements fileA 1200000 = some 2 ∧ 2 = upcTotal docA ∧
    count_upc_elements (.wellFormed docA true .ok) 1 = some 2 ∧
    2 = 1 + 1 ∧ 1 + 1 ≤ upcTotal docA :=
  ⟨by decide,
   (C8_estimator.1 docA .ok 1200000 2 (by decide)).1 (by norm_num),
   by decide,
   (C8_estimator.1 docA .ok 1 2 (by decide)).2 (by norm_num) |>.1,
   (C8_estimator.1 docA .ok 1 2 (by decide)).2 (by norm_num) |>.2⟩

/-- C10: the parser is deterministic in its input: two runs on equal
inputs produce equal results, and in particular equal flat rows in the
same order. -/
theorem C10_deterministic :
    ∀ f1 f2 : File, f1 = f2 →
      parse_contact_lens_xml f1 = parse_contact_lens_xml f2 ∧
      (∀ df1 df2, (parse_contact_lens_xml f1).1 = some df1 →
        (parse_contact_lens_xml f2).1 = some df2 → df1.rows = df2.rows) := by
  intro f1 f2 h
  subst h
  refine ⟨rfl, ?_⟩
  intro df1 df2 h1 h2
  rw [h1] at h2
  exact congrArg Frame.rows (Option.some.inj h2)

/-- C10 witness: two runs on the Scenario A file agree. -/
theorem C10_deterministic_witness :
    parse_contact_lens_xml fileA = parse_contact_lens_xml fileA ∧
    Frame.rows ⟨column_order, extractRows docA⟩
      = Frame.rows ⟨column_order, extractRows docA⟩ :=
  ⟨(C10_deterministic fileA fileA rfl).1,
   (C10_deterministic fileA fileA rfl).2 ⟨column_order, extractRows docA⟩
     ⟨column_order, extractRows docA⟩ (by rfl) (by rfl)⟩

/-- C2: whenever the parser accepts a fully-parsable document and returns
a table, the table's columns are exactly the 20 canonical columns in the
fixed canonical order, its rows are exactly the extracted rows (so their
count R satisfies 0 < R ≤ 1,048,576), every row carries all 20 fields,
and any field whose source element or attribute is missing holds the
empty string — never an absent column — in both schema variants. -/
theorem C2_output_shape :
    (∀ root scan df logs,
      parse_contact_lens_xml (.wellFormed root scan .ok) = (some df, logs) →
      df.cols = column_order ∧
      df.rows = extractRows root ∧
      0 < df.rows.length ∧ df.rows.length ≤ 1048576 ∧
      (∀ r ∈ df.rows, r.map Prod.fst = column_order)) ∧
    (∀ m p u cName s, (cName, s) ∈ fieldSrc → srcMissing m p u s →
      (mkRow m p u).lookup cName = some "") := by
  constructor
  · intro root scan df logs h
    have hb : parse_contact_lens_xml (.wellFormed root scan .ok)
        = parseBody (.wellFormed root scan .ok) := by
      cases scan with
      | false => exact parse_eq_body_of_none _ rfl
      | true =>
        by_cases hn : countLoop 1200000 (Elem.endTags root) 0 > 1000000
        · have hrej := parse_reject_of_big (.wellFormed root true .ok) _ rfl hn
          rw [hrej] at h
          exact absurd (congrArg Prod.fst h) (by simp)
        · exact parse_eq_body_of_small _ _ rfl hn
    rw [hb, parseBody_ok] at h
    by_cases hne : extractRows root = []
    · rw [if_pos hne] at h
      exact absurd (congrArg Prod.fst h) (by simp)
    · rw [if_neg hne] at h
      by_cases hlen : (extractRows root).length > 1048576
      · rw [if_pos hlen] at h
        exact absurd (congrArg Prod.fst h) (by simp)
      · rw [if_neg hlen] at h
        have hdf : df = ⟨column_order.filter
            (fun c => (unionKeys (extractRows root)).contains c), extractRows root⟩ :=
          (Option.some.inj (congrArg Prod.fst h)).symm
        subst hdf
        refine ⟨availableCols_extractRows root hne, rfl, ?_,
          by show (extractRows root).length ≤ 1048576; omega, ?_⟩
        · simp only [List.length_pos]
          exact hne
        · intro r hr
          obtain ⟨m, p, u, rfl⟩ := mem_extractRows root r hr
          exact keys_mkRow m p u
  · intro m p u cName s hmem hmiss
    exact mkRow_missing m p u cName s hmem hmiss

/-- C2 witness: the Scenario A table has the canonical columns, and the
optional newer-schema field Trial_or_Revenue, absent in the source,
reads as the empty string. -/
theorem C2_output_shape_witness :
    Frame.cols ⟨column_order, extractRows docA⟩ = column_order ∧
    (mkRow manufA prodA (upcElem "U1")).lookup "Trial_or_Revenue" = some "" :=
  ⟨(C2_output_shape.1 docA true ⟨column_order, extractRows docA⟩ [] (by rfl)).1,
   C2_output_shape.2 manufA prodA (upcElem "U1") "Trial_or_Revenue"
     (.pChild "pTrialOrRev") (by decide) (by rfl)⟩

/-- C3: the parser never raises past its boundary: every input yields a
table or a rejection; a structural parse failure is logged as
"XML parse error: detail", an out-of-memory condition during the full
parse as "MemoryError - file too large for ElementTree/pandas", and any
other traversal failure as "Unexpected error: kind - detail" (the latter
two whenever the pre-flight estimate did not already reject the file). -/
theorem C3_no_raise :
    ∀ f, ((parse_contact_lens_xml f).1 = none ∨
        ∃ df, (parse_contact_lens_xml f).1 = some df) ∧
      (∀ d, f = .malformed d →
        parse_contact_lens_xml f = (none, ["XML parse error: " ++ d])) ∧
      (∀ root scan, f = .wellFormed root scan .memoryError →
        (∀ n, count_upc_elements f = some n → n ≤ 1000000) →
        parse_contact_lens_xml f =
          (none, ["MemoryError - file too large for ElementTree/pandas"])) ∧
      (∀ root scan kind detail, f = .wellFormed root scan (.otherError kind detail) →
        (∀ n, count_upc_elements f = some n → n ≤ 1000000) →
        parse_contact_lens_xml f =
          (none, ["Unexpected error: " ++ kind ++ " - " ++ detail])) := by
  intro f
  refine ⟨?_, ?_, ?_, ?_⟩
  · cases h : (parse_contact_lens_xml f).1 with
    | none => exact Or.inl rfl
    | some df => exact Or.inr ⟨df, rfl⟩
  · intro d h
    subst h
    rfl
  · intro root scan h hcap
    subst h
    cases scan with
    | false => rfl
    | true =>
      have hsmall : ¬ countLoop 1200000 (Elem.endTags root) 0 > 1000000 := by
        have := hcap (countLoop 1200000 (Elem.endTags root) 0) rfl
        omega
      rw [parse_eq_body_of_small (.wellFormed root true .memoryError)
        (countLoop 1200000 (Elem.endTags root) 0) rfl hsmall]
      rfl
  · intro root scan kind detail h hcap
    subst h
    cases scan with
    | false => rfl
    | true =>
      have hsmall : ¬ countLoop 1200000 (Elem.endTags root) 0 > 1000000 := by
        have := hcap (countLoop 1200000 (Elem.endTags root) 0) rfl
        omega
      rw [parse_eq_body_of_small (.wellFormed root true (.otherError kind detail))
        (countLoop 1200000 (Elem.endTags root) 0) rfl hsmall]
      rfl

/-- C3 witness: concrete malformed, out-of-memory, and other-failure files
are each rejected with the corresponding logged reason. -/
theorem C3_no_raise_witness :
    parse_contact_lens_xml (.malformed "not well-formed: line 3, column 7")
      = (none, ["XML parse error: not well-formed: line 3, column 7"]) ∧
    parse_contact_lens_xml (.wellFormed docA true .memoryError)
      = (none, ["MemoryError - file too large for ElementTree/pandas"]) ∧
    parse_contact_lens_xml (.wellFormed docA true (.otherError "ValueError" "boom"))
      = (none, ["Unexpected error: ValueError - boom"]) :=
  ⟨(C3_no_raise (.malformed "not well-formed: line 3, column 7")).2.1 _ rfl,
   (C3_no_raise (.wellFormed docA true .memoryError)).2.2.1 docA true rfl
     (fun n h => by
       rw [show count_upc_elements (.wellFormed docA true .memoryError) = some 2
         from by decide] at h
       have h2 := Option.some.inj h
       omega),
   (C3_no_raise (.wellFormed docA true (.otherError "ValueError" "boom"))).2.2.2
     docA true "ValueError" "boom" rfl
     (fun n h => by
       rw [show count_upc_elements (.wellFormed docA true (.otherError "ValueError" "boom"))
         = some 2 from by decide] at h
       have h2 := Option.some.inj h
       omega)⟩

/-- C5: whenever the pre-flight estimate does not reject a fully-parsable
document but the full traversal produces strictly more than 1,048,576
rows, the parser discards the table and rejects with the logged
too-many-rows reason, returning no table. -/
theorem C5_row_ceiling :
    ∀ root scan,
      (∀ n, count_upc_elements (.wellFormed root scan .ok) = some n → n ≤ 1000000) →
      1048576 < (extractRows root).length →
      parse_contact_lens_xml (.wellFormed root scan .ok) =
        (none, ["Too many rows (" ++ commaFmt (extractRows root).length
          ++ " > Excel max 1,048,576)"]) := by
  intro root scan hcap hlen
  have hb : parse_contact_lens_xml (.wellFormed root scan .ok)
      = parseBody (.wellFormed root scan .ok) := by
    cases scan with
    | false => exact parse_eq_body_of_none _ rfl
    | true =>
      have hsmall : ¬ countLoop 1200000 (Elem.endTags root) 0 > 1000000 := by
        have := hcap (countLoop 1200000 (Elem.endTags root) 0) rfl
        omega
      exact parse_eq_body_of_small _ _ rfl hsmall
  have hne : ¬ extractRows root = [] := by
    intro he
    rw [he] at hlen
    simp at hlen
  rw [hb, parseBody_ok, if_neg hne, if_pos hlen]

/-- C5 witness: a document with 1,048,577 extractable upc rows (whose
estimator scan fails, so the pre-flight check passes) is rejected
post-parse with the too-many-rows reason. -/
theorem C5_row_ceiling_witness :
    (extractRows (bigDoc 1048577)).length = 1048577 ∧
    parse_contact_lens_xml (.wellFormed (bigDoc 1048577) false .ok) =
      (none, ["Too many rows (" ++ commaFmt (extractRows (bigDoc 1048577)).length
        ++ " > Excel max 1,048,576)"]) :=
  ⟨extractRows_bigDoc_length 1048577,
   C5_row_ceiling (bigDoc 1048577) false
     (fun n h => nomatch h)
     (by rw [extractRows_bigDoc_length]; norm_num)⟩

/-- C6 counterexample: a document with 1,200,002 properly-placed upc
records makes the estimator early-exit with count 1,200,001, while the
full traversal extracts 1,200,002 rows — so a non-null estimate does NOT
always bound the row count. -/
theorem C6_estimate_bound_counterexample :
    count_upc_elements (.wellFormed (bigDoc 1200002) true .ok) = some 1200001 ∧
    (extractRows (bigDoc 1200002)).length = 1200002 ∧
    ¬ (extractRows (bigDoc 1200002)).length ≤ 1200001 := by
  refine ⟨?_, extractRows_bigDoc_length 1200002, ?_⟩
  · rw [count_upc_char, upcTotal_bigDoc, if_neg (by norm_num)]
  · rw [extractRows_bigDoc_length]
    norm_num

/-- C6 (amended): whenever the estimator returns a non-null count
n ≤ 1,000,000 — so no early exit occurred and the count is exact — the
full traversal produces at most n rows, and consequently the post-parse
too-many-rows branch is unreachable: a successful full parse logs
nothing at all. -/
theorem C6_estimate_bound :
    ∀ root o n, count_upc_elements (.wellFormed root true o) = some n →
      n ≤ 1000000 →
      (extractRows root).length ≤ n ∧
      (parse_contact_lens_xml (.wellFormed root true .ok)).2 = [] := by
  intro root o n h hn
  have hexact : n = upcTotal root := by
    rw [count_upc_char] at h
    have h' := Option.some.inj h
    by_cases hle : upcTotal root ≤ 1200000
    · rw [if_pos hle] at h'
      omega
    · rw [if_neg hle] at h'
      omega
  have hrows : (extractRows root).length ≤ n := by
    rw [hexact]
    exact extractRows_le_upcTotal root
  refine ⟨hrows, ?_⟩
  have hc : count_upc_elements (.wellFormed root true .ok) = some n := h
  have hb := parse_eq_body_of_small _ n hc (by omega)
  rw [hb, parseBody_ok]
  by_cases hne : extractRows root = []
  · rw [if_pos hne]
  · rw [if_neg hne, if_neg (by omega)]

/-- C6 witness: on the Scenario A file the exact estimate 2 bounds the
2 extracted rows and nothing is logged. -/
theorem C6_estimate_bound_witness :
    (extractRows docA).length ≤ 2 ∧
    (parse_contact_lens_xml (.wellFormed docA true .ok)).2 = [] :=
  C6_estimate_bound docA .ok 2 (by decide) (by norm_num)

/-- C7 counterexample: a document with 1,000,001 upc elements outside any
manufacturer/product hierarchy has zero extractable leaf-records, yet the
parser rejects it pre-flight and the skip logger records a reason — so a
zero-extractable-row document is NOT always skipped silently. -/
theorem C7_empty_counterexample :
    extractRows (flatUpcDoc 1000001) = [] ∧
    parse_contact_lens_xml (.wellFormed (flatUpcDoc 1000001) true .ok) =
      (none, ["Too many UPCs (~1,000,001 > 1M limit)"]) ∧
    (parse_contact_lens_xml (.wellFormed (flatUpcDoc 1000001) true .ok)).2 ≠ [] := by
  have hcount : count_upc_elements (.wellFormed (flatUpcDoc 1000001) true .ok)
      = some 1000001 := by
    rw [count_upc_char, upcTotal_flatUpcDoc, if_pos (by norm_num)]
  have hp := parse_reject_of_big _ 1000001 hcount (by norm_num)
  refine ⟨extractRows_flatUpcDoc 1000001, ?_, ?_⟩
  · rw [hp, show commaFmt 1000001 = "1,000,001" from by decide]
    rfl
  · rw [hp]
    simp

/-- C7 (amended): whenever the pre-flight estimate does not reject a
fully-parsable document and its traversal extracts zero leaf-records, the
parser returns no table and records nothing via the skip logger. -/
theorem C7_empty_result :
    ∀ root scan,
      (∀ n, count_upc_elements (.wellFormed root scan .ok) = some n → n ≤ 1000000) →
      extractRows root = [] →
      parse_contact_lens_xml (.wellFormed root scan .ok) = (none, []) := by
  intro root scan hcap hrows
  have hb : parse_contact_lens_xml (.wellFormed root scan .ok)
      = parseBody (.wellFormed root scan .ok) := by
    cases scan with
    | false => exact parse_eq_body_of_none _ rfl
    | true =>
      have hsmall : ¬ countLoop 1200000 (Elem.endTags root) 0 > 1000000 := by
        have := hcap (countLoop 1200000 (Elem.endTags root) 0) rfl
        omega
      exact parse_eq_body_of_small _ _ rfl hsmall
  rw [hb, parseBody_ok, if_pos hrows]

/-- C7 witness: a document with no upc elements at all is skipped with an
empty log. -/
theorem C7_empty_result_witness :
    parse_contact_lens_xml (.wellFormed docEmpty true .ok) = (none, []) :=
  C7_empty_result docEmpty true
    (fun n h => by
      rw [show count_upc_elements (.wellFormed docEmpty true .ok) = some 0
        from by decide] at h
      have h2 := Option.some.inj h
      omega)
    (by decide)

/-- C9: every document that triggers the estimator's early exit at the
default threshold (more than 1,200,000 upc occurrences) gets the count
1,200,001, which exceeds the 1,000,000 rejection cap, so the parser
necessarily rejects it pre-flight. -/
theorem C9_early_exit_rejected :
    ∀ root o, 1200000 < upcTotal root →
      count_upc_elements (.wellFormed root true o) = some 1200001 ∧
      1000000 < 1200001 ∧
      parse_contact_lens_xml (.wellFormed root true o) =
        (none, ["Too many UPCs (~" ++ commaFmt 1200001 ++ " > 1M limit)"]) := by
  intro root o h
  have hc : count_upc_elements (.wellFormed root true o) = some 1200001 := by
    rw [count_upc_char, if_neg (by omega)]
  exact ⟨hc, by norm_num, parse_reject_of_big _ 1200001 hc (by norm_num)⟩

/-- C9 witness: a document with exactly 1,200,001 upc records early-exits
and is rejected pre-flight. -/
theorem C9_early_exit_rejected_witness :
    count_upc_elements (.wellFormed (bigDoc 1200001) true .ok) = some 1200001 ∧
    1000000 < 1200001 ∧
    parse_contact_lens_xml (.wellFormed (bigDoc 1200001) true .ok) =
      (none, ["Too many UPCs (~" ++ commaFmt 1200001 ++ " > 1M limit)"]) :=
  C9_early_exit_rejected (bigDoc 1200001) .ok
    (by rw [upcTotal_bigDoc]; norm_num)

end XmlToXlsx
